import Mathlib

/-!
Shallow embedding of the canvas-cli-v2 terminal client:
the selectable table widget (`pkg/ui/table.go`), the Canvas API client
(`pkg/api/client.go`, `pkg/api/models.go`) and the users command
(`pkg/cmd/users.go`), together with theorems settling the specification
claims about them.

Stateful Go code is embedded as explicit state passing; callbacks are
embedded as an `Effect` value returned by the update step recording which
callback was invoked with which argument; remote HTTP calls are embedded
as an explicit outcome/"server" parameter.
-/

/-- A table row: an ordered list of cell strings (bubbles `table.Row`). -/
abbrev Row := List String

/-- A table column: a title and a display width (bubbles `table.Column`). -/
structure Column where
  title : String
  width : Int
  deriving DecidableEq, Repr

/-- Go `clamp` helper from the bubbles table package:
`clamp(v, low, high) = min(max(v, low), high)`.  Note that when
`high < low` (empty row list, `high = len(rows)-1 = -1`) the result is
`high`, which is how a cursor of `-1` can arise. -/
def clamp (v low high : Int) : Int := min (max v low) high

/-- State of the inner bubbles `table.Model`: columns, rows, cursor and
height.  The cursor is an `Int` because the Go `clamp` yields `-1` on an
empty row list.  The focus flag and the visual styles are
presentation-only and not modelled; every table in this repository is
constructed focused and never blurred. -/
structure InnerTable where
  columns : List Column
  rows : List Row
  cursor : Int
  height : Int
  deriving DecidableEq, Repr

/-- bubbles `table.New(WithColumns c, WithRows r, WithFocused true,
WithHeight h)`: a fresh model whose cursor is the zero value `0`. -/
def InnerTable.new (cols : List Column) (rows : List Row) (h : Int) : InnerTable :=
  ⟨cols, rows, 0, h⟩

/-- bubbles `Model.SetCursor(n)`: `m.cursor = clamp(n, 0, len(m.rows)-1)`. -/
def InnerTable.SetCursor (t : InnerTable) (n : Int) : InnerTable :=
  { t with cursor := clamp n 0 (t.rows.length - 1) }

/-- bubbles `Model.MoveUp(1)` (keys up / k):
`m.cursor = clamp(m.cursor-1, 0, len(m.rows)-1)`. -/
def InnerTable.MoveUp (t : InnerTable) : InnerTable :=
  { t with cursor := clamp (t.cursor - 1) 0 (t.rows.length - 1) }

/-- bubbles `Model.MoveDown(1)` (keys down / j). -/
def InnerTable.MoveDown (t : InnerTable) : InnerTable :=
  { t with cursor := clamp (t.cursor + 1) 0 (t.rows.length - 1) }

/-- bubbles `Model.SelectedRow()`: the row under the cursor, or `nil`
(here `[]`) when the cursor is out of range. -/
def InnerTable.SelectedRow (t : InnerTable) : Row :=
  if t.cursor < 0 ∨ (t.rows.length : Int) ≤ t.cursor then []
  else t.rows.getD t.cursor.toNat []

/-- The key strokes the table widget reacts to.  `q`/`ctrlC`/`esc` quit,
space toggles, `a` selects all, enter commits, up/k and down/j move the
cursor by one. -/
inductive Key where
  | up | k | down | j | space | a | enter | q | esc | ctrlC
  deriving DecidableEq, Repr

/-- The inner table's `Update` restricted to the keys the widget forwards
to it: only LineUp (up/k) and LineDown (down/j) ever reach the inner
table because `TableModel.Update` intercepts and returns early on every
other key of the modelled alphabet. -/
def InnerTable.update (t : InnerTable) : Key → InnerTable
  | .up | .k => t.MoveUp
  | .down | .j => t.MoveDown
  | _ => t

/-- `ui.TableModel` (pkg/ui/table.go).  The Go callback fields `OnSelect`
and `OnMultiSelect` are function pointers used only for nil-checks and
invocation; they are embedded as presence flags, and invocations are
reported through the `Effect` returned by `TableModel.Update`.  The Go
`selectedRows map[int]bool` only ever stores `true` values, so it is a
finite set of `Int` indices. -/
structure TableModel where
  table : InnerTable
  baseRows : List Row
  baseColumns : List Column
  Title : String
  Help : String
  OnSelect : Bool
  OnMultiSelect : Bool
  selectedRows : Finset Int
  multiSelectMode : Bool
  deriving DecidableEq

/-- `ui.NewTableModel`: captures the given table's rows and columns as
the base rows/columns and starts with an empty selection in
single-select mode; the callbacks start unset (Go nil zero value). -/
def NewTableModel (t : InnerTable) : TableModel where
  table := t
  baseRows := t.rows
  baseColumns := t.columns
  Title := "Table"
  Help := "↑/↓: Navigate • enter: Select • q: Quit"
  OnSelect := false
  OnMultiSelect := false
  selectedRows := ∅
  multiSelectMode := false

/-- `TableModel.IsRowSelected`: Go map lookup, `false` when absent. -/
def TableModel.IsRowSelected (m : TableModel) (index : Int) : Bool :=
  decide (index ∈ m.selectedRows)

/-- `TableModel.updateTableWithSelectionIndicators`: rebuilds the inner
table from the base rows, prefixing each row with a "✓"-or-empty
indicator cell and the columns with a width-2 indicator column, forcing
height 25, and restoring the previous cursor position via `SetCursor`. -/
def TableModel.updateTableWithSelectionIndicators (m : TableModel) : TableModel :=
  let cursorPos := m.table.cursor
  let height : Int := 25
  let newRows := m.baseRows.enum.map fun p =>
    (if m.IsRowSelected p.1 then "✓" else "") :: p.2
  let columns : List Column := ⟨"", 2⟩ :: m.baseColumns
  let newTable := (InnerTable.new columns newRows height).SetCursor cursorPos
  { m with table := newTable }

/-- `TableModel.ToggleRow`: flips membership of the cursor index in the
selection set, then (in multi-select mode) rebuilds the indicator
table. -/
def TableModel.ToggleRow (m : TableModel) : TableModel :=
  let currentIndex := m.table.cursor
  let m' :=
    if currentIndex ∈ m.selectedRows then
      { m with selectedRows := m.selectedRows.erase currentIndex }
    else
      { m with selectedRows := insert currentIndex m.selectedRows }
  if m'.multiSelectMode then m'.updateTableWithSelectionIndicators else m'

/-- `TableModel.GetSelectedRows`: walks the base rows in order and keeps
those whose index is in the selection set. -/
def TableModel.GetSelectedRows (m : TableModel) : List Row :=
  (m.baseRows.enum.filter fun p => m.IsRowSelected p.1).map Prod.snd

/-- `TableModel.SelectAll`: inserts every base-row index into the
selection set, then (in multi-select mode) rebuilds the indicator
table. -/
def TableModel.SelectAll (m : TableModel) : TableModel :=
  let m' := { m with selectedRows :=
    (List.range m.baseRows.length).foldl (fun s (i : Nat) => insert (i : Int) s) m.selectedRows }
  if m'.multiSelectMode then m'.updateTableWithSelectionIndicators else m'

/-- `TableModel.ClearSelections`: replaces the selection set with a fresh
empty map, then (in multi-select mode) rebuilds the indicator table. -/
def TableModel.ClearSelections (m : TableModel) : TableModel :=
  let m' := { m with selectedRows := (∅ : Finset Int) }
  if m'.multiSelectMode then m'.updateTableWithSelectionIndicators else m'

/-- `TableModel.EnableMultiSelect`: switches to multi-select mode,
replaces the help line, rebuilds the inner table at fixed height 25 from
the current table's rows and columns preserving the cursor, then adds
the selection indicators. -/
def TableModel.EnableMultiSelect (m : TableModel) : TableModel :=
  let fixedHeight : Int := 25
  let newTable :=
    (InnerTable.new m.table.columns m.table.rows fixedHeight).SetCursor m.table.cursor
  let m' := { m with
    multiSelectMode := true
    Help := "↑/↓: Navigate • space: Select/Deselect • a: Select All • enter: Perform Action on Selected • q: Quit"
    table := newTable }
  m'.updateTableWithSelectionIndicators

/-- The observable effect of one `Update` step: quitting, invoking the
single-selection callback with a row, invoking the multi-selection
callback with a row list, or nothing. -/
inductive Effect where
  | none
  | quit
  | callOnSelect (row : Row)
  | callOnMultiSelect (rows : List Row)
  deriving DecidableEq, Repr

/-- `TableModel.Update` (the `tea.KeyMsg` switch): quit keys quit; space
toggles and `a` selects all only in multi-select mode, both returning
early; enter commits — in multi-select mode with a non-empty selection
map and a set multi-callback it invokes the multi-callback with
`GetSelectedRows`, otherwise in single-select mode with a set callback
and a non-empty row list it invokes the single callback with
`SelectedRow`; all remaining keys are forwarded to the inner table. -/
def TableModel.Update (m : TableModel) (key : Key) : TableModel × Effect :=
  match key with
  | .q | .ctrlC | .esc => (m, .quit)
  | .space => if m.multiSelectMode then (m.ToggleRow, .none) else (m, .none)
  | .a => if m.multiSelectMode then (m.SelectAll, .none) else (m, .none)
  | .enter =>
    if m.multiSelectMode && decide (0 < m.selectedRows.card) && m.OnMultiSelect then
      (m, .callOnMultiSelect m.GetSelectedRows)
    else if !m.multiSelectMode && m.OnSelect && decide (0 < m.table.rows.length) then
      (m, .callOnSelect m.table.SelectedRow)
    else (m, .none)
  | .up | .k | .down | .j => ({ m with table := m.table.update key }, .none)

/-- One input event processed by the widget: a key stroke handled by
`Update`, the one-time `EnableMultiSelect` call, or a `ClearSelections`
call (cleared programmatically; toggling and select-all are reached
through the space and `a` keys).  `View` takes the model by value and
returns a string, so rendering has no state effect and needs no event. -/
inductive Op where
  | key (ky : Key)
  | enableMultiSelect
  | clearSelections
  deriving DecidableEq, Repr

/-- Process one event. -/
def applyOp (m : TableModel) : Op → TableModel
  | .key ky => (m.Update ky).1
  | .enableMultiSelect => m.EnableMultiSelect
  | .clearSelections => m.ClearSelections

/-- Process a sequence of events in order. -/
def applyOps (m : TableModel) (ops : List Op) : TableModel :=
  ops.foldl applyOp m

example :
    ((NewTableModel (InnerTable.new [⟨"ID", 10⟩] [["1"], ["2"]] 15)).EnableMultiSelect.ToggleRow).selectedRows
      = {0} := by decide

example :
    (applyOps (NewTableModel (InnerTable.new [⟨"ID", 10⟩] [] 15))
      [.enableMultiSelect, .key .space]).selectedRows = {-1} := by decide

/-! ## API client (pkg/api) -/

/-- `api.User` (pkg/api/models.go).  All fields are Go `int` / `string`;
the defaults are the Go zero values. -/
structure User where
  ID : Int := 0
  Name : String := ""
  SortableName : String := ""
  ShortName : String := ""
  SISUserID : String := ""
  SISImportID : Int := 0
  LoginID : String := ""
  IntegrationID : String := ""
  Email : String := ""
  Locale : String := ""
  Avatar : String := ""
  deriving DecidableEq, Repr

/-- `api.Course` (pkg/api/models.go), scalar fields.  The `time.Time`
fields (`StartAt`, `EndAt`, `CreatedAt`) are opaque timestamps never
inspected by the code under verification and are not modelled. -/
structure Course where
  ID : Int := 0
  Name : String := ""
  CourseCode : String := ""
  Workflow : String := ""
  AccountID : Int := 0
  EnrollmentTermID : Int := 0
  GradingStandardID : Int := 0
  RestrictEnrollments : Bool := false
  deriving DecidableEq, Repr

/-- `api.Enrollment` (pkg/api/models.go).  The `time.Time` fields and the
nested float-valued `Grades` object are never inspected by the code under
verification and are not modelled; the defaults are the Go zero
values. -/
structure Enrollment where
  ID : Int := 0
  UserID : Int := 0
  CourseID : Int := 0
  EnrollType : String := ""
  TotalActivityTime : Int := 0
  HTMLURL : String := ""
  EnrollUser : User := {}
  CourseSectionID : Int := 0
  EnrollmentState : String := ""
  LimitPrivileges : Bool := false
  Role : String := ""
  RoleID : Int := 0
  deriving DecidableEq, Repr

/-- One decimal digit value, `none` for a non-digit character. -/
def digitVal (c : Char) : Option Nat :=
  if '0' ≤ c ∧ c ≤ '9' then some (c.toNat - '0'.toNat) else none

/-- Parse a non-empty all-digit character list to its decimal value. -/
def parseDigits (cs : List Char) : Option Nat :=
  if cs = [] then none
  else
    cs.foldl
      (fun acc c =>
        match acc, digitVal c with
        | some n, some d => some (10 * n + d)
        | _, _ => Option.none)
      (some 0)

/-- Model of Go `strconv.Atoi`: an optional sign followed by at least one
decimal digit; any other input is an error (`none`).  The Go `int`-range
overflow check is not modelled — no claim concerns values near 2^63. -/
def atoi (s : String) : Option Int :=
  match s.data with
  | '-' :: rest => (parseDigits rest).map fun n => -(n : Int)
  | '+' :: rest => (parseDigits rest).map fun n => (n : Int)
  | cs => (parseDigits cs).map fun n => (n : Int)

/-- The error cases of `Client.RemoveUserByID` (pkg/api/client.go), one
constructor per `fmt.Errorf` site, carrying the formatted payload. -/
inductive RemoveError where
  | fetchError (msg : String)
  | invalidUserID (userID : String)
  | removeFailed (msg : String)
  | notFound (userID courseID : String)
  deriving DecidableEq, Repr

/-- `Client.RemoveUserByID(courseID, userID)`.  The two remote calls are
embedded as parameters: `fetched` is the result of
`GetEnrollments(courseID)` and `deleteResult enrID` is the result of
`RemoveUserFromCourse(courseID, enrID)` (`none` = success, `some msg` =
error).  Returns the Go result together with the list of enrollment IDs
for which a DELETE call was issued: first the fetch is checked, then the
user ID is parsed with `strconv.Atoi`, then the enrollments are scanned
in order for the first one whose `UserID` matches and that single
enrollment is deleted; if none matches, the locally synthesized
not-found error is returned without any delete. -/
def RemoveUserByID (fetched : Except String (List Enrollment))
    (deleteResult : Int → Option String)
    (courseID userID : String) : Except RemoveError Unit × List Int :=
  match fetched with
  | .error e => (.error (.fetchError e), [])
  | .ok enrollments =>
    match atoi userID with
    | none => (.error (.invalidUserID userID), [])
    | some uid =>
      match enrollments.find? (fun e => e.UserID == uid) with
      | some enr =>
        match deleteResult enr.ID with
        | some e => (.error (.removeFailed e), [enr.ID])
        | none => (.ok (), [enr.ID])
      | none => (.error (.notFound userID courseID), [])

/-- Outcome of one HTTP round trip as seen by `Client.Request`: either
the transport fails (`http.Client.Do` returns an error) or the server
responds with a status code and a body. -/
inductive HTTPOutcome where
  | transportFailure (msg : String)
  | response (status : Nat) (body : String)
  deriving DecidableEq, Repr

/-- `Client.Request` (pkg/api/client.go).  URL construction and the
authorization header cannot fail for the values this repository passes
and are not modelled; the function maps the round-trip outcome to the Go
return value: a transport error is wrapped as
`"error sending request: %w"`, a status ≥ 400 becomes
`"API error %d: %s"` carrying the status and the response body, and
otherwise the body is returned. -/
def Client.Request : HTTPOutcome → Except String String
  | .transportFailure msg => .error ("error sending request: " ++ msg)
  | .response status body =>
    if 400 ≤ status then .error ("API error " ++ toString status ++ ": " ++ body)
    else .ok body

/-- `Client.GetCourses` (pkg/api/client.go): performs the request and
decodes the body; `decodeCourses` embeds `json.Unmarshal` into
`[]Course`.  A request error propagates verbatim; a decode error is
wrapped as `"error parsing courses: %w"`. -/
def Client.GetCourses (outcome : HTTPOutcome)
    (decodeCourses : String → Except String (List Course)) :
    Except String (List Course) :=
  match Client.Request outcome with
  | .error e => .error e
  | .ok data =>
    match decodeCourses data with
    | .error e => .error ("error parsing courses: " ++ e)
    | .ok courses => .ok courses

/-! ## Users command (pkg/cmd/users.go) -/

/-- The pagination loop of `runUsersList` (pkg/cmd/users.go): starting at
page 1 it calls `client.GetUsers(courseID, page, perPage)`, appends the
returned records, and stops exactly when a page returns strictly fewer
records than `perPage`, otherwise increments the page.  `server page`
embeds a fetch that succeeds with that page's records; `fuel` bounds the
recursion of the shallow embedding (the Go loop runs unboundedly) — the
theorems only constrain runs whose fuel covers the terminating page.
Returns the accumulated records together with the pages requested, in
order. -/
def fetchAllUsers (server : Nat → List User) (perPage : Nat) :
    Nat → Nat → List User × List Nat
  | _, 0 => ([], [])
  | page, fuel + 1 =>
    let users := server page
    if users.length < perPage then (users, [page])
    else
      let rest := fetchAllUsers server perPage (page + 1) fuel
      (users ++ rest.1, page :: rest.2)

/-- The per-row outcome state accumulated by the remove-all branch of
`MultiActionModel.Update` (pkg/cmd/users.go): the user IDs passed to
`RemoveUserByID` in call order, the per-row outcome lines in order
(successive `results.WriteString` calls), and the success / failure /
progress counters. -/
structure BulkOutcome where
  calls : List String := []
  messages : List String := []
  success : Nat := 0
  failed : Nat := 0
  progress : Nat := 0
  deriving DecidableEq, Repr

/-- One iteration of the remove-all loop: `userID := row[0]`,
`userName := row[1]`, one `RemoveUserByID` call, then either the failure
line and `failed++` or the success line and `success++`, and
`progress++`.  `removeUser userID` embeds
`m.client.RemoveUserByID(m.courseID, userID)` (`none` = success). -/
def bulkStep (removeUser : String → Option String) (st : BulkOutcome) (row : Row) :
    BulkOutcome :=
  let userID := row.getD 0 ""
  let userName := row.getD 1 ""
  match removeUser userID with
  | some err =>
    { st with
      calls := st.calls ++ [userID]
      messages := st.messages ++
        ["❌ Failed to remove " ++ userName ++ " (" ++ userID ++ "): " ++ err]
      failed := st.failed + 1
      progress := st.progress + 1 }
  | none =>
    { st with
      calls := st.calls ++ [userID]
      messages := st.messages ++ ["✅ Removed " ++ userName ++ " (" ++ userID ++ ")"]
      success := st.success + 1
      progress := st.progress + 1 }

/-- The remove-all branch of `MultiActionModel.Update` on the enter key
with the cursor on "Remove all selected users": iterates the selected
rows in order, accumulating the per-row outcomes. -/
def MultiActionModel.removeAll (removeUser : String → Option String)
    (selectedUsers : List Row) : BulkOutcome :=
  selectedUsers.foldl (bulkStep removeUser) {}

example : atoi "123" = some 123 := by rfl
example : atoi "-41" = some (-41) := by rfl
example : atoi "abc" = none := by rfl
example : atoi "" = none := by rfl
example : atoi "12a" = none := by rfl
example :
    (MultiActionModel.removeAll
      (fun uid => if uid = "7" then some "boom" else none)
      [["5", "alice"], ["7", "bob"], ["9", "carol"]]).success = 2 := by rfl

/-! ## Helper lemmas about the table widget -/

theorem clamp_of_mem (v n : Int) (h0 : 0 ≤ v) (hn : v < n) : clamp v 0 (n - 1) = v := by
  unfold clamp
  omega

theorem clamp_mem (v n : Int) (hn : 0 < n) :
    0 ≤ clamp v 0 (n - 1) ∧ clamp v 0 (n - 1) < n := by
  unfold clamp
  omega

theorem updateTable_baseRows (m : TableModel) :
    m.updateTableWithSelectionIndicators.baseRows = m.baseRows := rfl

theorem updateTable_baseColumns (m : TableModel) :
    m.updateTableWithSelectionIndicators.baseColumns = m.baseColumns := rfl

theorem updateTable_selectedRows (m : TableModel) :
    m.updateTableWithSelectionIndicators.selectedRows = m.selectedRows := rfl

theorem updateTable_multiSelectMode (m : TableModel) :
    m.updateTableWithSelectionIndicators.multiSelectMode = m.multiSelectMode := rfl

theorem updateTable_rows_length (m : TableModel) :
    m.updateTableWithSelectionIndicators.table.rows.length = m.baseRows.length := by
  simp [TableModel.updateTableWithSelectionIndicators, InnerTable.new, InnerTable.SetCursor]

theorem updateTable_cursor (m : TableModel) :
    m.updateTableWithSelectionIndicators.table.cursor
      = clamp m.table.cursor 0 ((m.baseRows.length : Int) - 1) := by
  simp [TableModel.updateTableWithSelectionIndicators, InnerTable.new, InnerTable.SetCursor]

theorem ToggleRow_baseRows (m : TableModel) : m.ToggleRow.baseRows = m.baseRows := by
  simp only [TableModel.ToggleRow]
  split_ifs <;> rfl

theorem ToggleRow_baseColumns (m : TableModel) : m.ToggleRow.baseColumns = m.baseColumns := by
  simp only [TableModel.ToggleRow]
  split_ifs <;> rfl

theorem ToggleRow_multiSelectMode (m : TableModel) :
    m.ToggleRow.multiSelectMode = m.multiSelectMode := by
  simp only [TableModel.ToggleRow]
  split_ifs <;> rfl

theorem ToggleRow_selectedRows (m : TableModel) :
    m.ToggleRow.selectedRows
      = if m.table.cursor ∈ m.selectedRows then m.selectedRows.erase m.table.cursor
        else insert m.table.cursor m.selectedRows := by
  simp only [TableModel.ToggleRow]
  split_ifs <;> rfl

theorem SelectAll_baseRows (m : TableModel) : m.SelectAll.baseRows = m.baseRows := by
  simp only [TableModel.SelectAll]
  split_ifs <;> rfl

theorem SelectAll_baseColumns (m : TableModel) : m.SelectAll.baseColumns = m.baseColumns := by
  simp only [TableModel.SelectAll]
  split_ifs <;> rfl

theorem SelectAll_multiSelectMode (m : TableModel) :
    m.SelectAll.multiSelectMode = m.multiSelectMode := by
  simp only [TableModel.SelectAll]
  split_ifs <;> rfl

theorem SelectAll_selectedRows (m : TableModel) :
    m.SelectAll.selectedRows
      = (List.range m.baseRows.length).foldl (fun t (i : Nat) => insert (i : Int) t) m.selectedRows := by
  simp only [TableModel.SelectAll]
  split_ifs <;> rfl

theorem ClearSelections_baseRows (m : TableModel) :
    m.ClearSelections.baseRows = m.baseRows := by
  simp only [TableModel.ClearSelections]
  split_ifs <;> rfl

theorem ClearSelections_baseColumns (m : TableModel) :
    m.ClearSelections.baseColumns = m.baseColumns := by
  simp only [TableModel.ClearSelections]
  split_ifs <;> rfl

theorem ClearSelections_multiSelectMode (m : TableModel) :
    m.ClearSelections.multiSelectMode = m.multiSelectMode := by
  simp only [TableModel.ClearSelections]
  split_ifs <;> rfl

theorem ClearSelections_selectedRows (m : TableModel) :
    m.ClearSelections.selectedRows = (∅ : Finset Int) := by
  simp only [TableModel.ClearSelections]
  split_ifs <;> rfl

theorem EnableMultiSelect_baseRows (m : TableModel) :
    m.EnableMultiSelect.baseRows = m.baseRows := rfl

theorem EnableMultiSelect_baseColumns (m : TableModel) :
    m.EnableMultiSelect.baseColumns = m.baseColumns := rfl

theorem EnableMultiSelect_selectedRows (m : TableModel) :
    m.EnableMultiSelect.selectedRows = m.selectedRows := rfl

theorem EnableMultiSelect_multiSelectMode (m : TableModel) :
    m.EnableMultiSelect.multiSelectMode = true := rfl

theorem GetSelectedRows_congr {m₁ m₂ : TableModel} (hb : m₁.baseRows = m₂.baseRows)
    (hs : m₁.selectedRows = m₂.selectedRows) :
    m₁.GetSelectedRows = m₂.GetSelectedRows := by
  simp [TableModel.GetSelectedRows, TableModel.IsRowSelected, hb, hs]

theorem subset_foldl_insert (lst : List Nat) (s : Finset Int) :
    s ⊆ lst.foldl (fun t (i : Nat) => insert (i : Int) t) s := by
  induction lst generalizing s with
  | nil => exact Finset.Subset.refl s
  | cons hd tl ih =>
    rw [List.foldl_cons]
    exact (Finset.subset_insert _ s).trans (ih _)

theorem mem_foldl_insert {lst : List Nat} {j : Nat} (hj : j ∈ lst) (s : Finset Int) :
    (j : Int) ∈ lst.foldl (fun t (i : Nat) => insert (i : Int) t) s := by
  induction lst generalizing s with
  | nil => cases hj
  | cons hd tl ih =>
    rw [List.foldl_cons]
    rcases List.mem_cons.mp hj with h | h
    · subst h
      exact subset_foldl_insert tl _ (Finset.mem_insert_self _ _)
    · exact ih h _

/-- Shared concrete column schema for witnesses. -/
def sampleCols : List Column := [⟨"ID", 10⟩, ⟨"Name", 30⟩]

/-- Shared concrete row data for witnesses. -/
def sampleRows : List Row := [["1", "alice"], ["2", "bob"]]

/-- A multi-select model with the multi-callback set and row 0 toggled. -/
def sampleMultiModel : TableModel :=
  ({ NewTableModel (InnerTable.new sampleCols sampleRows 15) with
      OnMultiSelect := true }).EnableMultiSelect.ToggleRow

/-- A single-select model with the single-callback set. -/
def sampleSingleModel : TableModel :=
  { NewTableModel (InnerTable.new sampleCols sampleRows 15) with OnSelect := true }

/-! ## Claims about the table widget -/

/-- C1: processing the commit key (enter): in MultiSelect mode with a
non-empty Selection Set and a set multi-selection callback it invokes
that callback with exactly `GetSelectedRows` and leaves the state
unchanged; in SingleSelect mode with a set single-selection callback and
a non-empty row sequence it invokes that callback with the row at the
cursor and leaves the state unchanged; in every other case it invokes no
callback and leaves the state unchanged. -/
theorem commit_key_dispatch (m : TableModel) :
    (m.multiSelectMode = true → 0 < m.selectedRows.card → m.OnMultiSelect = true →
      m.Update .enter = (m, .callOnMultiSelect m.GetSelectedRows))
    ∧ (m.multiSelectMode = false → m.OnSelect = true → 0 < m.table.rows.length →
      m.Update .enter = (m, .callOnSelect m.table.SelectedRow))
    ∧ (¬(m.multiSelectMode = true ∧ 0 < m.selectedRows.card ∧ m.OnMultiSelect = true) →
      ¬(m.multiSelectMode = false ∧ m.OnSelect = true ∧ 0 < m.table.rows.length) →
      m.Update .enter = (m, .none)) := by
  refine ⟨fun h1 h2 h3 => ?_, fun h1 h2 h3 => ?_, fun h1 h2 => ?_⟩
  · have hc : (m.multiSelectMode && decide (0 < m.selectedRows.card) && m.OnMultiSelect)
        = true := by
      rw [h1, h3, decide_eq_true h2]
      rfl
    simp only [TableModel.Update, hc]
    rfl
  · have hcA : (m.multiSelectMode && decide (0 < m.selectedRows.card) && m.OnMultiSelect)
        = false := by
      rw [h1]
      rfl
    have hcB : (!m.multiSelectMode && m.OnSelect && decide (0 < m.table.rows.length))
        = true := by
      rw [h1, h2, decide_eq_true h3]
      rfl
    simp only [TableModel.Update, hcA, hcB]
    rfl
  · have hcA : (m.multiSelectMode && decide (0 < m.selectedRows.card) && m.OnMultiSelect)
        = false := by
      by_contra hc
      rw [Bool.not_eq_false, Bool.and_eq_true, Bool.and_eq_true, decide_eq_true_eq] at hc
      exact h1 ⟨hc.1.1, hc.1.2, hc.2⟩
    have hcB : (!m.multiSelectMode && m.OnSelect && decide (0 < m.table.rows.length))
        = false := by
      by_contra hc
      rw [Bool.not_eq_false, Bool.and_eq_true, Bool.and_eq_true, Bool.not_eq_true',
        decide_eq_true_eq] at hc
      exact h2 ⟨hc.1.1, hc.1.2, hc.2⟩
    simp only [TableModel.Update, hcA, hcB]
    rfl

/-- C1 witness: the three commit cases at concrete models. -/
theorem commit_key_dispatch_witness :
    sampleMultiModel.Update .enter
      = (sampleMultiModel, .callOnMultiSelect [["1", "alice"]])
    ∧ sampleSingleModel.Update .enter
      = (sampleSingleModel, .callOnSelect ["1", "alice"])
    ∧ (NewTableModel (InnerTable.new sampleCols sampleRows 15)).Update .enter
      = (NewTableModel (InnerTable.new sampleCols sampleRows 15), .none) := by
  refine ⟨?_, ?_, ?_⟩
  · exact ((commit_key_dispatch sampleMultiModel).1 (by decide) (by decide)
      (by decide)).trans (by decide)
  · exact ((commit_key_dispatch sampleSingleModel).2.1 (by decide) (by decide)
      (by decide)).trans (by decide)
  · exact (commit_key_dispatch _).2.2 (by decide) (by decide)

/-- C3: `SelectAll` followed by `GetSelectedRows` returns every base row
in original order, and `ClearSelections` followed by `GetSelectedRows`
returns the empty list, whatever the prior selection contents. -/
theorem selectAll_clear_selectedRows (m : TableModel) :
    m.SelectAll.GetSelectedRows = m.baseRows
    ∧ m.ClearSelections.GetSelectedRows = [] := by
  constructor
  · have key : ∀ p ∈ m.baseRows.enum,
        (m.SelectAll.IsRowSelected p.1 : Bool) = true := by
      intro p hp
      have hlt : p.1 < m.baseRows.length := by
        have := List.mk_mem_enum_iff_getElem?.mp (show (p.1, p.2) ∈ m.baseRows.enum from hp)
        exact (List.getElem?_eq_some_iff.mp this).1
      rw [TableModel.IsRowSelected, decide_eq_true_eq, SelectAll_selectedRows]
      exact mem_foldl_insert (List.mem_range.mpr hlt) _
    calc m.SelectAll.GetSelectedRows
        = (m.baseRows.enum.filter fun p => m.SelectAll.IsRowSelected p.1).map Prod.snd := by
          rw [TableModel.GetSelectedRows, SelectAll_baseRows]
      _ = m.baseRows.enum.map Prod.snd := by rw [List.filter_eq_self.mpr key]
      _ = m.baseRows := List.enum_map_snd _
  · rw [TableModel.GetSelectedRows]
    have : ∀ p : Nat × Row, (m.ClearSelections.IsRowSelected p.1 : Bool) = false := by
      intro p
      rw [TableModel.IsRowSelected, ClearSelections_selectedRows]
      simp
    simp [this]

/-! ## Toggling parity (C2) -/

theorem ToggleRow_cursor (m : TableModel) (hmode : m.multiSelectMode = true) :
    m.ToggleRow.table.cursor = clamp m.table.cursor 0 ((m.baseRows.length : Int) - 1) := by
  simp only [TableModel.ToggleRow]
  split_ifs with h1
  · exact updateTable_cursor _
  · exact updateTable_cursor _

/-- After `n` toggles with the cursor resting in range at row `i` of a
multi-select model, the base rows, mode and cursor are unchanged and the
selection set differs from the initial one exactly by `i` when `n` is
odd. -/
theorem toggle_iter_state (m : TableModel) (i : Nat)
    (hmode : m.multiSelectMode = true) (hcur : m.table.cursor = (i : Int))
    (hlt : i < m.baseRows.length) (hsel : (i : Int) ∉ m.selectedRows) (n : Nat) :
    (TableModel.ToggleRow^[n] m).baseRows = m.baseRows
    ∧ (TableModel.ToggleRow^[n] m).multiSelectMode = true
    ∧ (TableModel.ToggleRow^[n] m).table.cursor = (i : Int)
    ∧ (TableModel.ToggleRow^[n] m).selectedRows
        = (if Odd n then insert (i : Int) m.selectedRows else m.selectedRows) := by
  induction n with
  | zero =>
    refine ⟨rfl, hmode, hcur, ?_⟩
    rw [if_neg (by decide : ¬Odd 0)]
    rfl
  | succ n ih =>
    obtain ⟨hbr, hm, hc, hs⟩ := ih
    rw [Function.iterate_succ_apply']
    refine ⟨(ToggleRow_baseRows _).trans hbr, (ToggleRow_multiSelectMode _).trans hm, ?_, ?_⟩
    · rw [ToggleRow_cursor _ hm, hc, hbr]
      exact clamp_of_mem _ _ (Int.natCast_nonneg i) (by exact_mod_cast hlt)
    · rcases Nat.even_or_odd n with he | ho
      · have hsM : (TableModel.ToggleRow^[n] m).selectedRows = m.selectedRows := by
          rw [hs, if_neg (Nat.not_odd_iff_even.mpr he)]
        rw [ToggleRow_selectedRows, hc, hsM, if_neg hsel, if_pos he.add_one]
      · have hsM : (TableModel.ToggleRow^[n] m).selectedRows
            = insert (i : Int) m.selectedRows := by
          rw [hs, if_pos ho]
        rw [ToggleRow_selectedRows, hc, hsM, if_pos (Finset.mem_insert_self _ _),
          Finset.erase_insert hsel, if_neg (Nat.not_odd_iff_even.mpr ho.add_one)]

/-- C2 (amended): with the cursor resting on an in-range row `i` of a
multi-select model where `i` is not yet selected, after `n` toggles:
`i` is in the Selection Set exactly when `n` is odd; after an even
number of toggles `GetSelectedRows` is what it was initially (so it
excludes row `i`); after an odd number it includes the row at index
`i`.  The unamended claim (over every model) fails when `i` is already
selected: see the counterexample, where an even toggle count keeps the
pre-selected row included — toggling is an involution on membership,
not an absolute exclude/include. -/
theorem toggle_parity (m : TableModel) (i n : Nat)
    (hmode : m.multiSelectMode = true) (hcur : m.table.cursor = (i : Int))
    (hlt : i < m.baseRows.length) (hsel : (i : Int) ∉ m.selectedRows) :
    ((i : Int) ∈ (TableModel.ToggleRow^[n] m).selectedRows ↔ Odd n)
    ∧ (Even n → (TableModel.ToggleRow^[n] m).GetSelectedRows = m.GetSelectedRows)
    ∧ (Odd n → ∀ r, m.baseRows[i]? = some r →
        r ∈ (TableModel.ToggleRow^[n] m).GetSelectedRows) := by
  obtain ⟨hbr, _, _, hs⟩ := toggle_iter_state m i hmode hcur hlt hsel n
  refine ⟨?_, ?_, ?_⟩
  · rw [hs]
    by_cases h : Odd n
    · simp [h]
    · simp [h, hsel]
  · intro he
    exact GetSelectedRows_congr hbr (by rw [hs, if_neg (Nat.not_odd_iff_even.mpr he)])
  · intro ho r hr
    have hsM : (TableModel.ToggleRow^[n] m).selectedRows
        = insert (i : Int) m.selectedRows := by rw [hs, if_pos ho]
    rw [TableModel.GetSelectedRows, hbr]
    refine List.mem_map.mpr ⟨(i, r), List.mem_filter.mpr ⟨?_, ?_⟩, rfl⟩
    · exact List.mk_mem_enum_iff_getElem?.mpr hr
    · rw [TableModel.IsRowSelected, decide_eq_true_eq, hsM]
      exact Finset.mem_insert_self _ _

/-- A fresh multi-select model over the sample rows (no callbacks). -/
def sampleEnabledModel : TableModel :=
  (NewTableModel (InnerTable.new sampleCols sampleRows 15)).EnableMultiSelect

/-- C2 counterexample: the claim fails for a model whose Selection Set
already contains the cursor row.  `sampleEnabledModel.ToggleRow` is a
multi-select model with the cursor resting on row 0 and row 0 already
selected; toggling it an even number of times (2) leaves row 0 in the
Selection Set and its row in `GetSelectedRows`, where the claim says an
even toggle count excludes it. -/
theorem toggle_even_keeps_preselected :
    Even 2
    ∧ sampleEnabledModel.ToggleRow.multiSelectMode = true
    ∧ sampleEnabledModel.ToggleRow.table.cursor = 0
    ∧ (0 : Int) ∈ sampleEnabledModel.ToggleRow.selectedRows
    ∧ (0 : Int) ∈ (TableModel.ToggleRow^[2] sampleEnabledModel.ToggleRow).selectedRows
    ∧ ["1", "alice"]
        ∈ (TableModel.ToggleRow^[2] sampleEnabledModel.ToggleRow).GetSelectedRows := by
  refine ⟨by decide, by decide, by decide, by decide, by decide, by decide⟩

/-- C2 witness: one toggle at row 0 selects it, two toggles deselect. -/
theorem toggle_parity_witness :
    (0 : Int) ∈ (TableModel.ToggleRow^[1] sampleEnabledModel).selectedRows
    ∧ (0 : Int) ∉ (TableModel.ToggleRow^[2] sampleEnabledModel).selectedRows := by
  constructor
  · exact (toggle_parity sampleEnabledModel 0 1 (by decide) (by decide) (by decide)
      (by decide)).1.mpr (by decide)
  · intro hmem
    exact (by decide : ¬Odd 2) ((toggle_parity sampleEnabledModel 0 2 (by decide)
      (by decide) (by decide) (by decide)).1.mp hmem)

/-! ## Selection-index range invariant (C4) and base immutability (C9) -/

theorem Update_enter_fst (m : TableModel) : (m.Update .enter).1 = m := by
  simp only [TableModel.Update]
  split_ifs <;> rfl

/-- The reachable-state invariant for a table over `n` base rows: the
base rows and the inner table have `n` rows, the cursor is in range, and
every selected index is in `[0, n)`. -/
def GoodState (n : Nat) (m : TableModel) : Prop :=
  m.baseRows.length = n ∧ m.table.rows.length = n
  ∧ 0 ≤ m.table.cursor ∧ m.table.cursor < (n : Int)
  ∧ ∀ x ∈ m.selectedRows, 0 ≤ x ∧ x < (n : Int)

theorem GoodState.updateTable {n : Nat} {m : TableModel} (hn : 0 < n)
    (hb : m.baseRows.length = n)
    (hsel : ∀ x ∈ m.selectedRows, 0 ≤ x ∧ x < (n : Int)) :
    GoodState n m.updateTableWithSelectionIndicators := by
  have hpos : (0 : Int) < (n : Int) := by exact_mod_cast hn
  refine ⟨hb, (updateTable_rows_length m).trans hb, ?_, ?_, hsel⟩
  · rw [updateTable_cursor, hb]
    exact (clamp_mem _ _ hpos).1
  · rw [updateTable_cursor, hb]
    exact (clamp_mem _ _ hpos).2

theorem mem_foldl_insert_elim {lst : List Nat} {s : Finset Int} {x : Int}
    (hx : x ∈ lst.foldl (fun t (i : Nat) => insert (i : Int) t) s) :
    x ∈ s ∨ ∃ j ∈ lst, x = (j : Int) := by
  induction lst generalizing s with
  | nil => exact .inl hx
  | cons hd tl ih =>
    rw [List.foldl_cons] at hx
    rcases ih hx with h | ⟨j, hj, rfl⟩
    · rcases Finset.mem_insert.mp h with rfl | h
      · exact .inr ⟨hd, List.mem_cons_self _ _, rfl⟩
      · exact .inl h
    · exact .inr ⟨j, List.mem_cons_of_mem _ hj, rfl⟩

theorem GoodState.toggleRow {n : Nat} {m : TableModel} (hn : 0 < n)
    (h : GoodState n m) : GoodState n m.ToggleRow := by
  obtain ⟨hb, ht, hc0, hcn, hsel⟩ := h
  have hselE : ∀ x ∈ m.selectedRows.erase m.table.cursor, 0 ≤ x ∧ x < (n : Int) :=
    fun x hx => hsel x (Finset.mem_of_mem_erase hx)
  have hselI : ∀ x ∈ insert m.table.cursor m.selectedRows, 0 ≤ x ∧ x < (n : Int) := by
    intro x hx
    rcases Finset.mem_insert.mp hx with rfl | hx
    · exact ⟨hc0, hcn⟩
    · exact hsel x hx
  simp only [TableModel.ToggleRow]
  split_ifs with h1 h2 h3
  · exact GoodState.updateTable hn hb hselE
  · exact ⟨hb, ht, hc0, hcn, hselE⟩
  · exact GoodState.updateTable hn hb hselI
  · exact ⟨hb, ht, hc0, hcn, hselI⟩

theorem GoodState.selectAll {n : Nat} {m : TableModel} (hn : 0 < n)
    (h : GoodState n m) : GoodState n m.SelectAll := by
  obtain ⟨hb, ht, hc0, hcn, hsel⟩ := h
  have hselF : ∀ x ∈ (List.range m.baseRows.length).foldl
      (fun t (i : Nat) => insert (i : Int) t) m.selectedRows, 0 ≤ x ∧ x < (n : Int) := by
    intro x hx
    rcases mem_foldl_insert_elim hx with hx | ⟨j, hj, rfl⟩
    · exact hsel x hx
    · have hj' : j < n := hb ▸ List.mem_range.mp hj
      exact ⟨Int.natCast_nonneg j, by exact_mod_cast hj'⟩
  simp only [TableModel.SelectAll]
  split_ifs with h1
  · exact GoodState.updateTable hn hb hselF
  · exact ⟨hb, ht, hc0, hcn, hselF⟩

theorem GoodState.clearSelections {n : Nat} {m : TableModel} (hn : 0 < n)
    (h : GoodState n m) : GoodState n m.ClearSelections := by
  obtain ⟨hb, ht, hc0, hcn, _⟩ := h
  have hselE : ∀ x ∈ (∅ : Finset Int), 0 ≤ x ∧ x < (n : Int) := by
    intro x hx
    exact absurd hx (Finset.not_mem_empty x)
  simp only [TableModel.ClearSelections]
  split_ifs with h1
  · exact GoodState.updateTable hn hb hselE
  · exact ⟨hb, ht, hc0, hcn, hselE⟩

theorem GoodState.enableMultiSelect {n : Nat} {m : TableModel} (hn : 0 < n)
    (h : GoodState n m) : GoodState n m.EnableMultiSelect := by
  obtain ⟨hb, _, _, _, hsel⟩ := h
  exact GoodState.updateTable hn hb hsel

theorem GoodState.innerUpdate {n : Nat} {m : TableModel} (hn : 0 < n)
    (h : GoodState n m) (ky : Key) :
    GoodState n { m with table := m.table.update ky } := by
  obtain ⟨hb, ht, hc0, hcn, hsel⟩ := h
  have hpos : (0 : Int) < (n : Int) := by exact_mod_cast hn
  cases ky <;>
    first
      | exact ⟨hb, ht, hc0, hcn, hsel⟩
      | · refine ⟨hb, ht, ?_, ?_, hsel⟩ <;>
          · show _
            simp only [InnerTable.update, InnerTable.MoveUp, InnerTable.MoveDown]
            rw [ht]
            first
              | exact (clamp_mem _ _ hpos).1
              | exact (clamp_mem _ _ hpos).2

theorem GoodState.applyOp {n : Nat} {m : TableModel} (hn : 0 < n)
    (h : GoodState n m) (op : Op) : GoodState n (applyOp m op) := by
  cases op with
  | key ky =>
    cases ky with
    | space =>
      show GoodState n (m.Update .space).1
      simp only [TableModel.Update]
      split_ifs with h1
      · exact GoodState.toggleRow hn h
      · exact h
    | a =>
      show GoodState n (m.Update .a).1
      simp only [TableModel.Update]
      split_ifs with h1
      · exact GoodState.selectAll hn h
      · exact h
    | enter =>
      show GoodState n (m.Update .enter).1
      rw [Update_enter_fst]
      exact h
    | q => exact h
    | esc => exact h
    | ctrlC => exact h
    | up => exact GoodState.innerUpdate hn h .up
    | k => exact GoodState.innerUpdate hn h .k
    | down => exact GoodState.innerUpdate hn h .down
    | j => exact GoodState.innerUpdate hn h .j
  | enableMultiSelect => exact GoodState.enableMultiSelect hn h
  | clearSelections => exact GoodState.clearSelections hn h

theorem GoodState.applyOps {n : Nat} {m : TableModel} (hn : 0 < n)
    (h : GoodState n m) (ops : List Op) : GoodState n (applyOps m ops) := by
  induction ops generalizing m with
  | nil => exact h
  | cons op rest ih => exact ih (GoodState.applyOp hn h op)

/-- C4 counterexample: for a table constructed with zero rows, enabling
multi-select clamps the cursor to `-1` and pressing the toggle key
inserts `-1` into the Selection Set, so the Selection Set does not stay
empty and holds an index outside `[0, 0)`. -/
theorem empty_table_selection_escapes :
    (applyOps (NewTableModel (InnerTable.new sampleCols [] 15))
        [.enableMultiSelect, .key .space]).selectedRows = {-1}
    ∧ ¬∀ x ∈ (applyOps (NewTableModel (InnerTable.new sampleCols [] 15))
        [.enableMultiSelect, .key .space]).selectedRows,
        0 ≤ x ∧ x < ((0 : Nat) : Int) := by
  constructor
  · decide
  · decide

/-- C4 (amended): for every table whose initial inner table has at least
one row and an in-range cursor (as produced by `table.New`, whose cursor
is 0), every sequence of input events keeps every index of the Selection
Set inside `[0, rowCount)`.  The unamended claim is false for a table
constructed with zero rows: see the counterexample, where the toggle key
inserts the clamped cursor `-1`. -/
theorem selection_indices_in_range (t : InnerTable) (ops : List Op)
    (h0 : 0 ≤ t.cursor) (h1 : t.cursor < (t.rows.length : Int)) :
    ∀ x ∈ (applyOps (NewTableModel t) ops).selectedRows,
      0 ≤ x ∧ x < (t.rows.length : Int) := by
  have hn : 0 < t.rows.length := by
    by_contra hc
    rw [Nat.eq_zero_of_not_pos hc] at h1
    omega
  have hg : GoodState t.rows.length (NewTableModel t) := by
    refine ⟨rfl, rfl, h0, h1, ?_⟩
    intro x hx
    exact absurd hx (Finset.not_mem_empty x)
  exact (GoodState.applyOps hn hg ops).2.2.2.2

/-- C4 witness: a two-row table in multi-select mode after a toggle has
`0` selected, and the theorem places it inside `[0, 2)`. -/
theorem selection_indices_in_range_witness :
    (0 : Int) ≤ (InnerTable.new sampleCols sampleRows 15).cursor
    ∧ (InnerTable.new sampleCols sampleRows 15).cursor
        < ((InnerTable.new sampleCols sampleRows 15).rows.length : Int)
    ∧ ((0 : Int) ∈ (applyOps (NewTableModel (InnerTable.new sampleCols sampleRows 15))
        [.enableMultiSelect, .key .space]).selectedRows)
    ∧ (0 ≤ (0 : Int)
        ∧ (0 : Int) < (((InnerTable.new sampleCols sampleRows 15).rows.length : Nat) : Int)) :=
  ⟨by decide, by decide, by decide,
    selection_indices_in_range (InnerTable.new sampleCols sampleRows 15)
      [.enableMultiSelect, .key .space] (by decide) (by decide) 0 (by decide)⟩

theorem Update_fst_baseRows (m : TableModel) (ky : Key) :
    ((m.Update ky).1).baseRows = m.baseRows := by
  cases ky
  all_goals simp only [TableModel.Update]
  all_goals try split_ifs
  all_goals
    first
      | rfl
      | exact ToggleRow_baseRows m
      | exact SelectAll_baseRows m

theorem Update_fst_baseColumns (m : TableModel) (ky : Key) :
    ((m.Update ky).1).baseColumns = m.baseColumns := by
  cases ky
  all_goals simp only [TableModel.Update]
  all_goals try split_ifs
  all_goals
    first
      | rfl
      | exact ToggleRow_baseColumns m
      | exact SelectAll_baseColumns m

theorem applyOps_base_preserved (m : TableModel) (ops : List Op) :
    (applyOps m ops).baseRows = m.baseRows
    ∧ (applyOps m ops).baseColumns = m.baseColumns := by
  induction ops generalizing m with
  | nil => exact ⟨rfl, rfl⟩
  | cons op rest ih =>
    have hstep : (applyOp m op).baseRows = m.baseRows
        ∧ (applyOp m op).baseColumns = m.baseColumns := by
      cases op with
      | key ky => exact ⟨Update_fst_baseRows m ky, Update_fst_baseColumns m ky⟩
      | enableMultiSelect => exact ⟨rfl, rfl⟩
      | clearSelections =>
        exact ⟨ClearSelections_baseRows m, ClearSelections_baseColumns m⟩
    obtain ⟨ih1, ih2⟩ := ih (applyOp m op)
    exact ⟨ih1.trans hstep.1, ih2.trans hstep.2⟩

theorem GetSelectedRows_sublist (m : TableModel) :
    m.GetSelectedRows.Sublist m.baseRows := by
  have h1 : (m.baseRows.enum.filter fun p => m.IsRowSelected p.1).Sublist m.baseRows.enum :=
    List.filter_sublist _
  have h2 := h1.map Prod.snd
  rwa [List.enum_map_snd] at h2

/-- C9: under every sequence of input events, the base rows and base
columns captured at construction are never changed, and `GetSelectedRows`
always returns a subsequence of the original rows — the original row
content without the indicator column.  (`View` takes the model by value
and returns a string, so rendering has no state effect.) -/
theorem base_rows_columns_immutable (t : InnerTable) (ops : List Op) :
    (applyOps (NewTableModel t) ops).baseRows = t.rows
    ∧ (applyOps (NewTableModel t) ops).baseColumns = t.columns
    ∧ (applyOps (NewTableModel t) ops).GetSelectedRows.Sublist t.rows := by
  obtain ⟨hr, hc⟩ := applyOps_base_preserved (NewTableModel t) ops
  refine ⟨hr, hc, ?_⟩
  have h := GetSelectedRows_sublist (applyOps (NewTableModel t) ops)
  rwa [hr] at h

/-! ## Pagination (C5) -/

/-- Run of the pagination loop starting at page `p`: if pages
`p, ..., p+k-1` are full (length not below `perPage`) and page `p+k` is
short, the loop requests exactly pages `p, ..., p+k` and returns their
records concatenated in order. -/
theorem fetchAllUsers_run (server : Nat → List User) (perPage : Nat) :
    ∀ (k p fuel : Nat),
    (server (p + k)).length < perPage →
    (∀ j, j < k → ¬(server (p + j)).length < perPage) →
    k + 1 ≤ fuel →
    fetchAllUsers server perPage p fuel
      = (((List.range' p (k + 1)).map server).flatten, List.range' p (k + 1)) := by
  intro k
  induction k with
  | zero =>
    intro p fuel hshort _ hfuel
    rcases fuel with _ | f
    · omega
    · rw [Nat.add_zero] at hshort
      simp [fetchAllUsers, hshort]
  | succ k ih =>
    intro p fuel hshort hlong hfuel
    rcases fuel with _ | f
    · omega
    · have hp : ¬(server p).length < perPage := by
        have := hlong 0 (by omega)
        rwa [Nat.add_zero] at this
      have hrest := ih (p + 1) f
        (by rw [show p + 1 + k = p + (k + 1) by omega]; exact hshort)
        (by
          intro j hj
          rw [show p + 1 + j = p + (j + 1) by omega]
          exact hlong (j + 1) (by omega))
        (by omega)
      simp only [fetchAllUsers, if_neg hp, hrest, List.range'_succ, List.map_cons,
        List.flatten_cons]

/-- C5: the pagination loop of `runUsersList` starts at page 1,
accumulates pages in order, and stops exactly at the first page that
returns strictly fewer records than the requested page size — no other
termination signal is consulted (the run is fully determined by the
page lengths).  With pages 1..k-1 full and page k short, exactly pages
1..k are requested and their records are returned concatenated in
order. -/
theorem runUsersList_pagination (server : Nat → List User) (perPage k fuel : Nat)
    (hk : 1 ≤ k)
    (hshort : (server k).length < perPage)
    (hlong : ∀ j, 1 ≤ j → j < k → perPage ≤ (server j).length)
    (hfuel : k ≤ fuel) :
    fetchAllUsers server perPage 1 fuel
      = (((List.range' 1 k).map server).flatten, List.range' 1 k) := by
  obtain ⟨k', rfl⟩ : ∃ k', k = k' + 1 := ⟨k - 1, by omega⟩
  exact fetchAllUsers_run server perPage k' 1 fuel
    (by rw [show 1 + k' = k' + 1 by omega]; exact hshort)
    (fun j hj => by
      rw [Nat.not_lt]
      exact hlong (1 + j) (by omega) (by omega))
    hfuel

/-- `n` users with consecutive IDs starting at `start` (payload for
witnesses). -/
def mkUsers (start n : Nat) : List User :=
  (List.range' start n).map fun (i : Nat) => { ID := (i : Int) }

/-- A server answering pages of sizes 50, 50, 31 (the first C5
scenario). -/
def serverA : Nat → List User := fun p =>
  if p = 1 then mkUsers 0 50
  else if p = 2 then mkUsers 50 50
  else if p = 3 then mkUsers 100 31
  else []

/-- A server whose first page already has only 12 records (the second C5
scenario). -/
def serverB : Nat → List User := fun p =>
  if p = 1 then mkUsers 0 12 else []

/-- C5 witness: sizes [50, 50, 31] at page size 50 give exactly 3
requests and all 131 records in order; a first page of size 12 gives
exactly 1 request. -/
theorem runUsersList_pagination_witness :
    fetchAllUsers serverA 50 1 3
      = (mkUsers 0 50 ++ (mkUsers 50 50 ++ (mkUsers 100 31 ++ [])), [1, 2, 3])
    ∧ (mkUsers 0 50 ++ (mkUsers 50 50 ++ (mkUsers 100 31 ++ []))).length = 131
    ∧ fetchAllUsers serverB 50 1 1 = (mkUsers 0 12 ++ [], [1]) := by
  refine ⟨?_, ?_, ?_⟩
  · have h := runUsersList_pagination serverA 50 3 3 (by decide) (by decide)
      (by
        intro j h1 h2
        interval_cases j <;> decide)
      (by decide)
    exact h.trans (by rfl)
  · rw [List.length_append, List.length_append, List.length_append, mkUsers, mkUsers,
      mkUsers, List.length_map, List.length_map, List.length_map, List.length_range',
      List.length_range', List.length_range']
    rfl
  · have h := runUsersList_pagination serverB 50 1 1 (by decide) (by decide)
      (by
        intro j h1 h2
        omega)
      (by decide)
    exact h.trans (by rfl)

/-! ## Remove user by ID (C6, C10) -/

theorem find?_first {α : Type} (p : α → Bool) (pre post : List α) (a : α)
    (hpre : ∀ e ∈ pre, p e = false) (ha : p a = true) :
    (pre ++ a :: post).find? p = some a := by
  induction pre with
  | nil => simpa using List.find?_cons_of_pos post ha
  | cons hd tl ih =>
    rw [List.cons_append, List.find?_cons_of_neg _
      (by simp [hpre hd (List.mem_cons_self hd tl)])]
    exact ih fun e he => hpre e (List.mem_cons_of_mem hd he)

/-- C6: the remove-user-by-id operation linearly scans the fetched
enrollments in order; on the first enrollment whose user identifier
matches the parsed user id it issues exactly one delete (for that
enrollment's ID) and, when the delete succeeds, succeeds; when no
enrollment matches, it fails with the locally synthesized not-found
error and issues no delete call. -/
theorem removeUserByID_scan (pre post enrollments : List Enrollment) (enr : Enrollment)
    (deleteResult : Int → Option String) (courseID userID : String) (uid : Int)
    (hparse : atoi userID = some uid) :
    (enrollments = pre ++ enr :: post →
      (∀ e ∈ pre, e.UserID ≠ uid) → enr.UserID = uid → deleteResult enr.ID = none →
      RemoveUserByID (.ok enrollments) deleteResult courseID userID = (.ok (), [enr.ID]))
    ∧ ((∀ e ∈ enrollments, e.UserID ≠ uid) →
      RemoveUserByID (.ok enrollments) deleteResult courseID userID
        = (.error (.notFound userID courseID), [])) := by
  constructor
  · intro hsplit hpre hmatch hdel
    have hfind : enrollments.find? (fun e => e.UserID == uid) = some enr := by
      rw [hsplit]
      exact find?_first _ pre post enr
        (fun e he => beq_eq_false_iff_ne.mpr (hpre e he)) (beq_iff_eq.mpr hmatch)
    simp [RemoveUserByID, hparse, hfind, hdel]
  · intro hnone
    have hfind : enrollments.find? (fun e => e.UserID == uid) = none := by
      rw [List.find?_eq_none]
      intro e he
      simp [hnone e he]
    simp [RemoveUserByID, hparse, hfind]

/-- Concrete enrollment of user 5 with enrollment ID 100. -/
def sampleEnr1 : Enrollment := { ID := 100, UserID := 5 }

/-- Concrete enrollment of user 7 with enrollment ID 101. -/
def sampleEnr2 : Enrollment := { ID := 101, UserID := 7 }

/-- C6 witness: removing user 7 from [{user 5, enr 100}, {user 7,
enr 101}] deletes enrollment 101 and succeeds; removing user 9 fails
with the not-found error and issues no delete. -/
theorem removeUserByID_scan_witness :
    RemoveUserByID (.ok [sampleEnr1, sampleEnr2]) (fun _ => none) "c1" "7"
      = (.ok (), [101])
    ∧ RemoveUserByID (.ok [sampleEnr1, sampleEnr2]) (fun _ => none) "c1" "9"
      = (.error (.notFound "9" "c1"), []) := by
  constructor
  · exact (removeUserByID_scan [sampleEnr1] [] [sampleEnr1, sampleEnr2] sampleEnr2
      (fun _ => none) "c1" "7" 7 (by rfl)).1 (by rfl) (by decide) (by decide) (by rfl)
  · exact (removeUserByID_scan [] [] [sampleEnr1, sampleEnr2] sampleEnr2
      (fun _ => none) "c1" "9" 9 (by rfl)).2 (by decide)

/-- C10: when the user-id string does not parse as an integer, the
remove-user-by-id operation fails with the local invalid-user-ID error
and issues no delete call; the parse happens only after the enrollment
fetch (a fetch error takes precedence); and a delete call is only ever
issued for an integer-parsable user id. -/
theorem removeUserByID_invalid_id (deleteResult : Int → Option String)
    (courseID userID : String) :
    (∀ enrollments : List Enrollment, atoi userID = none →
      RemoveUserByID (.ok enrollments) deleteResult courseID userID
        = (.error (.invalidUserID userID), []))
    ∧ (∀ msg : String,
      RemoveUserByID (.error msg) deleteResult courseID userID
        = (.error (.fetchError msg), []))
    ∧ (∀ fetched : Except String (List Enrollment),
      (RemoveUserByID fetched deleteResult courseID userID).2 ≠ [] →
      ∃ uidVal : Int, atoi userID = some uidVal) := by
  refine ⟨?_, ?_, ?_⟩
  · intro enrollments hparse
    simp [RemoveUserByID, hparse]
  · intro msg
    rfl
  · intro fetched hne
    cases fetched with
    | error e => simp [RemoveUserByID] at hne
    | ok enrollments =>
      cases hp : atoi userID with
      | none => simp [RemoveUserByID, hp] at hne
      | some uidVal => exact ⟨uidVal, rfl⟩

/-- C10 witness: user id "abc" does not parse; the operation returns the
invalid-user-ID error and issues no delete. -/
theorem removeUserByID_invalid_id_witness :
    atoi "abc" = none
    ∧ RemoveUserByID (.ok [sampleEnr1, sampleEnr2]) (fun _ => none) "c1" "abc"
        = (.error (.invalidUserID "abc"), []) :=
  ⟨by rfl, (removeUserByID_invalid_id (fun _ => none) "c1" "abc").1
    [sampleEnr1, sampleEnr2] (by rfl)⟩

/-! ## Bulk removal (C7) -/

/-- State of the remove-all fold from an arbitrary starting outcome:
every row contributes exactly one call and one message, and the counters
advance by the number of successes / failures among the rows. -/
theorem bulkFold_state (removeUser : String → Option String) (rows : List Row)
    (st : BulkOutcome) :
    (rows.foldl (bulkStep removeUser) st).calls
        = st.calls ++ rows.map (fun r => r.getD 0 "")
    ∧ (rows.foldl (bulkStep removeUser) st).messages.length
        = st.messages.length + rows.length
    ∧ (rows.foldl (bulkStep removeUser) st).success
        = st.success + (rows.filter fun r => (removeUser (r.getD 0 "")).isNone).length
    ∧ (rows.foldl (bulkStep removeUser) st).failed
        = st.failed + (rows.filter fun r => (removeUser (r.getD 0 "")).isSome).length
    ∧ (rows.foldl (bulkStep removeUser) st).progress
        = st.progress + rows.length := by
  induction rows generalizing st with
  | nil => simp
  | cons row rest ih =>
    rw [List.foldl_cons]
    obtain ⟨ih1, ih2, ih3, ih4, ih5⟩ := ih (bulkStep removeUser st row)
    cases hcall : removeUser (row.getD 0 "") with
    | some err =>
      simp only [bulkStep, hcall] at ih1 ih2 ih3 ih4 ih5 ⊢
      refine ⟨?_, ?_, ?_, ?_, ?_⟩ <;>
        simp only [ih1, ih2, ih3, ih4, ih5, List.length_append, List.length_cons,
          List.length_nil, List.filter_cons, hcall, Option.isNone_some, Option.isSome_some,
          List.map_cons, List.append_assoc, List.cons_append, List.nil_append,
          Bool.false_eq_true, if_false, if_true] <;>
        first
          | rfl
          | omega
    | none =>
      simp only [bulkStep, hcall] at ih1 ih2 ih3 ih4 ih5 ⊢
      refine ⟨?_, ?_, ?_, ?_, ?_⟩ <;>
        simp only [ih1, ih2, ih3, ih4, ih5, List.length_append, List.length_cons,
          List.length_nil, List.filter_cons, hcall, Option.isNone_none, Option.isSome_none,
          List.map_cons, List.append_assoc, List.cons_append, List.nil_append,
          Bool.false_eq_true, if_false, if_true] <;>
        first
          | rfl
          | omega

theorem filter_isNone_isSome_length (removeUser : String → Option String)
    (rows : List Row) :
    (rows.filter fun r => (removeUser (r.getD 0 "")).isNone).length
      + (rows.filter fun r => (removeUser (r.getD 0 "")).isSome).length
      = rows.length := by
  induction rows with
  | nil => rfl
  | cons row rest ihr =>
    rw [List.filter_cons, List.filter_cons]
    cases hcall : removeUser (row.getD 0 "") with
    | some err =>
      simp only [hcall, Option.isNone_some, Option.isSome_some, Bool.false_eq_true,
        if_false, if_true, List.length_cons]
      omega
    | none =>
      simp only [hcall, Option.isNone_none, Option.isSome_none, Bool.false_eq_true,
        if_false, if_true, List.length_cons]
      omega

/-- C7: the remove-all action over a non-empty list of pre-selected rows
issues exactly one remove call per row in order, records exactly one
per-row outcome message per row, counts successes and failures (which
sum to the row count), and a failing row does not stop processing of
the remaining rows (every row, even after a failure, is called and
counted). -/
theorem bulk_remove_processes_all_rows (removeUser : String → Option String)
    (rows : List Row) (_hne : rows ≠ []) :
    (MultiActionModel.removeAll removeUser rows).calls
        = rows.map (fun r => r.getD 0 "")
    ∧ (MultiActionModel.removeAll removeUser rows).messages.length = rows.length
    ∧ (MultiActionModel.removeAll removeUser rows).success
        = (rows.filter fun r => (removeUser (r.getD 0 "")).isNone).length
    ∧ (MultiActionModel.removeAll removeUser rows).failed
        = (rows.filter fun r => (removeUser (r.getD 0 "")).isSome).length
    ∧ (MultiActionModel.removeAll removeUser rows).progress = rows.length
    ∧ (MultiActionModel.removeAll removeUser rows).success
        + (MultiActionModel.removeAll removeUser rows).failed = rows.length := by
  obtain ⟨h1, h2, h3, h4, h5⟩ := bulkFold_state removeUser rows {}
  have hsum := filter_isNone_isSome_length removeUser rows
  refine ⟨by simpa using h1, by simpa using h2, by simpa using h3, by simpa using h4,
    by simpa using h5, ?_⟩
  have h3' := h3
  have h4' := h4
  simp only [MultiActionModel.removeAll] at *
  omega

/-- Remove function for the C7 witness: user "7" (the 2nd row) fails. -/
def failOn7 : String → Option String := fun uid =>
  if uid = "7" then some "boom" else none

/-- The three selected rows of the C7 witness scenario. -/
def bulkRows : List Row := [["5", "alice"], ["7", "bob"], ["9", "carol"]]

/-- C7 witness: 3 rows where the 2nd fails yield success count 2,
failure count 1 and 3 per-row messages, with every row called. -/
theorem bulk_remove_processes_all_rows_witness :
    (MultiActionModel.removeAll failOn7 bulkRows).calls = ["5", "7", "9"]
    ∧ (MultiActionModel.removeAll failOn7 bulkRows).messages.length = 3
    ∧ (MultiActionModel.removeAll failOn7 bulkRows).success = 2
    ∧ (MultiActionModel.removeAll failOn7 bulkRows).failed = 1 := by
  obtain ⟨h1, h2, h3, h4, _, _⟩ :=
    bulk_remove_processes_all_rows failOn7 bulkRows (by decide)
  exact ⟨h1.trans (by decide), h2.trans (by decide), h3.trans (by decide),
    h4.trans (by decide)⟩

/-! ## Error taxonomy (C8) -/

theorem string_append_ne_of_early_mismatch (a b : String) (i : Nat)
    (hia : i < a.data.length) (hib : i < b.data.length)
    (hne : a.data[i]? ≠ b.data[i]?) (x y : String) : a ++ x ≠ b ++ y := by
  intro h
  have hdata : a.data ++ x.data = b.data ++ y.data := by
    have h2 := congrArg String.data h
    rwa [String.data_append, String.data_append] at h2
  have e1 : (a.data ++ x.data)[i]? = a.data[i]? := List.getElem?_append_left hia
  have e2 : (b.data ++ y.data)[i]? = b.data[i]? := List.getElem?_append_left hib
  apply hne
  rw [← e1, ← e2, hdata]

/-- C8: the client operation fails with the transport-error message when
the round trip cannot be completed, with the API-error message carrying
the status and the response body when the server answers with status
≥ 400, and with the decode-error message when a < 400 response body does
not parse; and the three error families are pairwise distinguishable
(no transport-error string equals an API-error or decode-error string,
and no API-error string equals a decode-error string). -/
theorem client_error_taxonomy :
    (∀ (msg : String) (dec : String → Except String (List Course)),
      Client.GetCourses (.transportFailure msg) dec
        = .error ("error sending request: " ++ msg))
    ∧ (∀ (status : Nat) (body : String) (dec : String → Except String (List Course)),
      400 ≤ status →
      Client.GetCourses (.response status body) dec
        = .error ("API error " ++ (toString status ++ (": " ++ body))))
    ∧ (∀ (status : Nat) (body e : String) (dec : String → Except String (List Course)),
      status < 400 → dec body = .error e →
      Client.GetCourses (.response status body) dec
        = .error ("error parsing courses: " ++ e))
    ∧ (∀ (msg e body : String) (status : Nat),
      ("error sending request: " ++ msg ≠ "API error " ++ (toString status ++ (": " ++ body)))
      ∧ ("error sending request: " ++ msg ≠ "error parsing courses: " ++ e)
      ∧ ("API error " ++ (toString status ++ (": " ++ body))
          ≠ "error parsing courses: " ++ e)) := by
  refine ⟨?_, ?_, ?_, ?_⟩
  · intro msg dec
    rfl
  · intro status body dec hge
    simp only [Client.GetCourses, Client.Request, if_pos hge]
    rw [String.append_assoc, String.append_assoc]
  · intro status body e dec hlt hdec
    simp only [Client.GetCourses, Client.Request, if_neg (Nat.not_le.mpr hlt), hdec]
  · intro msg e body status
    refine ⟨?_, ?_, ?_⟩
    · exact string_append_ne_of_early_mismatch _ _ 0 (by decide) (by decide)
        (by decide) _ _
    · exact string_append_ne_of_early_mismatch _ _ 6 (by decide) (by decide)
        (by decide) _ _
    · exact string_append_ne_of_early_mismatch _ _ 0 (by decide) (by decide)
        (by decide) _ _

/-- Decoder for the C8 witness that rejects every body. -/
def decFail : String → Except String (List Course) := fun _ => .error "bad json"

/-- C8 witness: the three failure modes at concrete inputs. -/
theorem client_error_taxonomy_witness :
    Client.GetCourses (.transportFailure "dns lookup failed") decFail
      = .error ("error sending request: " ++ "dns lookup failed")
    ∧ Client.GetCourses (.response 404 "missing") decFail
      = .error ("API error " ++ ("404" ++ (": " ++ "missing")))
    ∧ Client.GetCourses (.response 200 "junk") decFail
      = .error ("error parsing courses: " ++ "bad json") := by
  refine ⟨?_, ?_, ?_⟩
  · exact client_error_taxonomy.1 "dns lookup failed" decFail
  · exact (client_error_taxonomy.2.1 404 "missing" decFail (by decide)).trans (by rfl)
  · exact client_error_taxonomy.2.2.1 200 "junk" "bad json" decFail (by decide) (by rfl)
